import Mathlib

/-
Verification development for the rainbows Model validation engine
(src/rainbows/model/model.py, src/rainbows/model/builtin_validators.py,
src/rainbows/model/exceptions.py).

The embedding is shallow: Python values are the inductive `Value`, type
expressions (annotations built from the primitives and typing.Optional /
Union / List / Dict / Set) are the inductive `Ty`, Python dicts are
insertion-ordered association lists, and fallible Python code returns
`Except PyError`.  Exception classes are collapsed to the constructors of
`PyError`.
-/

namespace Rainbows

/-- The exception kinds the modelled code can raise.  `validationError`
carries the message and the offending key name (ValidationError.key_name in
src/rainbows/model/exceptions.py). -/
inductive PyError where
  | validationError (msg : String) (key : String)
  | typeError (msg : String)
  | valueError (msg : String)
  | runtimeError (msg : String)
  | attributeError (msg : String)
deriving DecidableEq

/-- Python values that can flow through the validation engine.  Floats are
abstracted to an integer code (no claim inspects a float's numeric content,
only whether coercion succeeds); datetimes are abstracted to a point on an
integer time axis. -/
inductive Value where
  | vnull
  | vbool (b : Bool)
  | vint (n : Int)
  | vfloat (f : Int)
  | vstr (s : String)
  | vdatetime (t : Int)
  | vlist (xs : List Value)
  | vset (xs : List Value)
  | vdict (entries : List (Value × Value))

/-- Structural equality on embedded values, standing in for Python `==`
(and, where the source compares dict keys with `is`, for identity: the
distinction is not observable by any claim). -/
def beqValue : Value → Value → Bool
  | .vnull, .vnull => true
  | .vbool a, .vbool b => a == b
  | .vint a, .vint b => a == b
  | .vfloat a, .vfloat b => a == b
  | .vstr a, .vstr b => a == b
  | .vdatetime a, .vdatetime b => a == b
  | .vlist xs, .vlist ys => beqValueList xs ys
  | .vset xs, .vset ys => beqValueList xs ys
  | .vdict xs, .vdict ys => beqValuePairs xs ys
  | _, _ => false
where
  beqValueList : List Value → List Value → Bool
    | [], [] => true
    | x :: xs, y :: ys => beqValue x y && beqValueList xs ys
    | _, _ => false
  beqValuePairs : List (Value × Value) → List (Value × Value) → Bool
    | [], [] => true
    | (k1, v1) :: xs, (k2, v2) :: ys =>
        beqValue k1 k2 && beqValue v1 v2 && beqValuePairs xs ys
    | _, _ => false

/-- Type expressions, i.e. the annotations the engine interprets.
`tnone` is `NoneType` (the normalised form of a `None` inside
`typing.Optional` / `typing.Union` arguments); `tunion args` is
`typing.Union[args...]` with the arguments in declared order, as
`typing.get_args` returns them. -/
inductive Ty where
  | tbool
  | tstr
  | tint
  | tfloat
  | tdatetime
  | tnone
  | tunion (args : List Ty)
  | tlist (elem : Ty)
  | tdict (keyTy : Ty) (valTy : Ty)
  | tset (elem : Ty)

/-- Python's textual name for a value's class, used in the coercers' error
messages (`type(x)` inside an f-string). -/
def pyTypeName : Value → String
  | .vnull => "<class 'NoneType'>"
  | .vbool _ => "<class 'bool'>"
  | .vint _ => "<class 'int'>"
  | .vfloat _ => "<class 'float'>"
  | .vstr _ => "<class 'str'>"
  | .vdatetime _ => "<class 'datetime.datetime'>"
  | .vlist _ => "<class 'list'>"
  | .vset _ => "<class 'set'>"
  | .vdict _ => "<class 'dict'>"

/-- `str(x)` for embedded values, used only inside error-message text (the
f-strings building nested dict keys).  Containers are abbreviated; no claim
reads those messages. -/
def pyStr : Value → String
  | .vnull => "None"
  | .vbool b => if b then "True" else "False"
  | .vint n => toString n
  | .vfloat f => toString f
  | .vstr s => s
  | .vdatetime t => toString t
  | .vlist _ => "[...]"
  | .vset _ => "{...}"
  | .vdict _ => "{...}"

/-- Stripping of surrounding spaces from a character list (the model of
`str.strip()` as `int()` / `float()` apply it; only the space character is
modelled, no claim feeds other whitespace). -/
def trimChars (cs : List Char) : List Char :=
  ((cs.dropWhile (fun c => c = ' ')).reverse.dropWhile (fun c => c = ' ')).reverse

/-- `str.lower()` over the ASCII range, character by character. -/
def keyLower (s : String) : String := String.mk (s.data.map Char.toLower)

/-- `str.startswith("_")`. -/
def startsWithUnderscore (s : String) : Bool :=
  match s.data with
  | '_' :: _ => true
  | _ => false

/-- Value of a nonempty all-digit character list, `none` otherwise. -/
def digitsVal? (cs : List Char) : Option Nat :=
  if cs.isEmpty then none
  else
    cs.foldl
      (fun acc c =>
        match acc with
        | none => none
        | some n => if c.isDigit then some (n * 10 + (c.toNat - 48)) else none)
      (some 0)

/-- Model of Python `int(s)` on strings: surrounding whitespace is stripped,
an optional sign is allowed, then decimal digits.  (Underscore separators
and non-ASCII digits are not modelled; no claim uses them.) -/
def pyInt? (s : String) : Option Int :=
  match trimChars s.data with
  | '-' :: rest => (digitsVal? rest).map (fun n => -(n : Int))
  | '+' :: rest => (digitsVal? rest).map (fun n => (n : Int))
  | cs => (digitsVal? cs).map (fun n => (n : Int))

/-- Numeric code of up to six fractional digits (part of the abstract float
encoding below). -/
def fracCode (cs : List Char) : Nat :=
  (cs.take 6).foldl (fun a c => a * 10 + (c.toNat - 48)) 0

/-- Model of Python `float(s)` on strings: optional sign, then digits with an
optional fractional part (`"1"`, `"1.5"`, `".5"`, `"5."`).  The result is an
abstract integer code for the float; claims only use success or failure.
(Exponents, `inf` and `nan` are not modelled; no claim uses them.) -/
def pyFloat? (s : String) : Option Int :=
  let withSign :=
    match trimChars s.data with
    | '-' :: rest => some ((-1 : Int), rest)
    | '+' :: rest => some ((1 : Int), rest)
    | cs => some ((1 : Int), cs)
  match withSign with
  | none => none
  | some (sgn, cs) =>
    match cs.span Char.isDigit with
    | (intPart, []) => (digitsVal? intPart).map (fun n => sgn * (n * 1000000))
    | (intPart, '.' :: frac) =>
        if intPart.isEmpty && frac.isEmpty then none
        else if frac.all Char.isDigit then
          some (sgn * (((digitsVal? intPart).getD 0) * 1000000 + fracCode frac))
        else none
    | _ => none

/-- Abstract textual form of an (abstractly encoded) float, for `str(x)`.
No claim inspects this text. -/
def floatRepr (f : Int) : String := toString f

/-- Model of `datetime.datetime.fromtimestamp`: the timestamp is taken as
the abstract time point itself.  (Range errors for out-of-range timestamps
are not modelled; no claim exercises them.) -/
def fromtimestamp (n : Int) : Int := n

/-- Model of `datetime.datetime.fromisoformat`, for plain `YYYY-MM-DD`
dates: the ten characters must be four digits, a dash, two digits, a dash
and two digits, with the month in 1..12 and the day in 1..31; the abstract
result encodes the date.  Strings of any other shape fail with ValueError,
which is all the claims rely on (time-of-day parts are not modelled). -/
def fromisoformat? (s : String) : Option Int :=
  match s.toList with
  | [y1, y2, y3, y4, d1, m1, m2, d2, dd1, dd2] =>
      if ([y1, y2, y3, y4, m1, m2, dd1, dd2].all Char.isDigit)
          && d1 = '-' && d2 = '-' then
        let y := ((digitsVal? [y1, y2, y3, y4]).getD 0)
        let mo := ((digitsVal? [m1, m2]).getD 0)
        let da := ((digitsVal? [dd1, dd2]).getD 0)
        if 1 ≤ mo && mo ≤ 12 && 1 ≤ da && da ≤ 31 then
          some ((y : Int) * 10000 + (mo : Int) * 100 + (da : Int))
        else none
      else none
  | _ => none

/-- The shared shape of the coercers' ValidationError messages:
`f"The value of key {key} is of type {type(x)}, expected {what} compatible"`. -/
def validationTypeMsg (key : String) (what : String) (x : Value) : PyError :=
  .validationError
    ("The value of key " ++ key ++ " is of type " ++ pyTypeName x
      ++ ", expected " ++ what ++ " compatible")
    key

/-- `_validate_bool` (src/rainbows/model/builtin_validators.py, lines
27-39).  Note the source computes `l = key.lower()`: it lower-cases the KEY
NAME, not the value, and compares that against the vocabulary. -/
def validate_bool (key : String) (x : Value) : Except PyError Value :=
  match x with
  | .vbool b => .ok (.vbool b)
  | .vstr _ =>
      let l := keyLower key
      if ["yes", "true", "y", "t"].contains l then .ok (.vbool true)
      else if ["no", "false", "n", "f"].contains l then .ok (.vbool false)
      else .error (validationTypeMsg key "bool" x)
  | _ => .error (validationTypeMsg key "bool" x)

/-- `_validate_str` (builtin_validators.py, lines 42-53).  `isinstance`
checks in source order: str, bool, (int, float). -/
def validate_str (key : String) (x : Value) : Except PyError Value :=
  match x with
  | .vstr s => .ok (.vstr s)
  | .vbool b => .ok (.vstr (if b then "true" else "false"))
  | .vint n => .ok (.vstr (toString n))
  | .vfloat f => .ok (.vstr (floatRepr f))
  | _ => .error (validationTypeMsg key "str" x)

/-- `_validate_int` (builtin_validators.py, lines 56-67).  A Python bool is
an instance of int, so bools pass through the `isinstance(x, int)` branch
unchanged. -/
def validate_int (key : String) (x : Value) : Except PyError Value :=
  match x with
  | .vint n => .ok (.vint n)
  | .vbool b => .ok (.vbool b)
  | .vstr s =>
      match pyInt? s with
      | some n => .ok (.vint n)
      | none => .error (validationTypeMsg key "int" x)
  | _ => .error (validationTypeMsg key "int" x)

/-- `_validate_float` (builtin_validators.py, lines 70-81).  Neither ints
nor bools are instances of float, so only floats pass through and only
strings are parsed. -/
def validate_float (key : String) (x : Value) : Except PyError Value :=
  match x with
  | .vfloat f => .ok (.vfloat f)
  | .vstr s =>
      match pyFloat? s with
      | some f => .ok (.vfloat f)
      | none => .error (validationTypeMsg key "float" x)
  | _ => .error (validationTypeMsg key "float" x)

/-- `_validate_datetime` (builtin_validators.py, lines 84-101).  The
`isinstance(x, (int, float))` branch also admits bools.  In the string
branch the source runs `datetime.datetime.fromtimestamp(int(x))` under
`except ValueError: return datetime.datetime.fromisoformat(x)`; the
fromisoformat call itself sits OUTSIDE any try, so when it fails its
ValueError escapes uncaught instead of becoming a ValidationError. -/
def validate_datetime (key : String) (x : Value) : Except PyError Value :=
  match x with
  | .vdatetime t => .ok (.vdatetime t)
  | .vint n => .ok (.vdatetime (fromtimestamp n))
  | .vbool b => .ok (.vdatetime (fromtimestamp (if b then 1 else 0)))
  | .vfloat f => .ok (.vdatetime (fromtimestamp f))
  | .vstr s =>
      match pyInt? s with
      | some n => .ok (.vdatetime (fromtimestamp n))
      | none =>
          match fromisoformat? s with
          | some t => .ok (.vdatetime t)
          | none => .error (.valueError ("Invalid isoformat string: '" ++ s ++ "'"))
  | _ => .error (validationTypeMsg key "datetime" x)

/-- The TypeError `_validate_attr` raises for a plain object that is neither
a key of BUILT_IN_VALIDATORS nor carries a `__validate__` attribute
(model.py, lines 70-71). -/
def noBuiltInTypeError (key : String) : PyError :=
  .typeError ("The type parameter for " ++ key
    ++ " does not have __validate__ and is not a recognised built-in type")

/-- The union branch loop catches exactly `(TypeError, ValidationError)`
(model.py, line 89); any other exception propagates immediately. -/
def caughtByUnion : PyError → Bool
  | .typeError _ => true
  | .validationError _ _ => true
  | _ => false

/-- Deletion in an embedded Python dict keyed by values. -/
def vdictDel (d : List (Value × Value)) (k : Value) : List (Value × Value) :=
  match d with
  | [] => []
  | (k', v') :: rest =>
      if beqValue k' k then rest else (k', v') :: vdictDel rest k

/-- Insertion-ordered update in an embedded Python dict keyed by values:
an existing key keeps its position, a new key is appended. -/
def vdictSet (d : List (Value × Value)) (k : Value) (v : Value) :
    List (Value × Value) :=
  match d with
  | [] => [(k, v)]
  | (k', v') :: rest =>
      if beqValue k' k then (k', v) :: rest else (k', v') :: vdictSet rest k v

/-- `set.add`: append the element unless an equal one is present. -/
def setAdd (acc : List Value) (v : Value) : List Value :=
  if acc.any (fun w => beqValue w v) then acc else acc ++ [v]

mutual

/-- `_validate_attr` (model.py, lines 35-135).  Dispatch in source order:
plain types go to the built-in coercers (NoneType is not registered and has
no `__validate__`, hence TypeError); `typing.Union` loops over its branches;
`typing.List` / `typing.Dict` / `typing.Set` recurse into the containers.
The union fast path `if item is None and None in types` is dead code:
`typing.get_args` normalises a literal `None` argument to `NoneType`, so
the list `types` never contains the `None` object and the membership test
is always False; the branch loop's guard `if type_ is not None` is True for
every argument for the same reason. -/
def validateAttr (t : Ty) (item : Value) (key : String) : Except PyError Value :=
  match t with
  | .tbool => validate_bool key item
  | .tstr => validate_str key item
  | .tint => validate_int key item
  | .tfloat => validate_float key item
  | .tdatetime => validate_datetime key item
  | .tnone => .error (noBuiltInTypeError key)
  | .tunion args => unionGo args item key none
  | .tlist et =>
      match item with
      | .vlist xs => (listGo et xs key 0).map .vlist
      | .vset xs => (listGo et xs key 0).map .vlist
      | _ => .error (.validationError ("The key " ++ key ++ " is not of a list type") key)
  | .tdict kt vt =>
      match item with
      | .vdict entries => (dictGo kt vt entries entries key).map .vdict
      | _ => .error (.validationError ("The key " ++ key ++ " is not of a dict type") key)
  | .tset et =>
      match item with
      | .vset xs => (setGo et xs key 0 []).map .vset
      | .vlist xs => (setGo et xs key 0 []).map .vset
      | _ => .error (.validationError ("The key " ++ key ++ " is not of a set or list type") key)
termination_by sizeOf t + sizeOf item

/-- The union branch loop of `_validate_attr` (model.py, lines 83-93):
branches are tried in declared order, a TypeError or ValidationError is
remembered as `last_throw` and the next branch tried, any other exception
propagates; when no branch succeeded the last caught error is re-raised,
and an argument-less union raises TypeError. -/
def unionGo (args : List Ty) (item : Value) (key : String)
    (last : Option PyError) : Except PyError Value :=
  match args with
  | [] =>
      match last with
      | some e => .error e
      | none => .error (.typeError ("Union for key " ++ key ++ " was empty"))
  | t :: rest =>
      match validateAttr t item key with
      | .ok v => .ok v
      | .error e =>
          if caughtByUnion e then unionGo rest item key (some e)
          else .error e
termination_by sizeOf args + sizeOf item

/-- The element loop of the `typing.List` case (model.py, lines 121-123):
each element is validated against the element type under the key
`f"{key}[{index}]"` and replaced in place. -/
def listGo (et : Ty) (xs : List Value) (key : String) (i : Nat) :
    Except PyError (List Value) :=
  match xs with
  | [] => .ok []
  | x :: rest =>
      match validateAttr et x (key ++ "[" ++ toString i ++ "]") with
      | .error e => .error e
      | .ok v => (listGo et rest key (i + 1)).map (fun l => v :: l)
termination_by sizeOf et + sizeOf xs + 1

/-- The entry loop of the `typing.Dict` case (model.py, lines 104-109): for
each entry the value is validated first, then the key; a key changed by
coercion is deleted and re-inserted.  The loop walks a snapshot of the
original entries while updating the working dict (the source iterates the
live dict; no claim depends on mutation-during-iteration effects). -/
def dictGo (kt vt : Ty) (todo : List (Value × Value))
    (acc : List (Value × Value)) (key : String) :
    Except PyError (List (Value × Value)) :=
  match todo with
  | [] => .ok acc
  | (dk, dv) :: rest =>
      let entryKey := key ++ "['" ++ pyStr dk ++ "']"
      match validateAttr vt dv entryKey with
      | .error e => .error e
      | .ok value =>
          match validateAttr kt dk entryKey with
          | .error e => .error e
          | .ok newKey =>
              let acc1 := if beqValue newKey dk then acc else vdictDel acc dk
              dictGo kt vt rest (vdictSet acc1 newKey value) key
termination_by sizeOf kt + sizeOf vt + sizeOf todo

/-- The element loop of the `typing.Set` case (model.py, lines 130-133):
each element is validated and added to a fresh set (`s.add`), collapsing
duplicates. -/
def setGo (et : Ty) (xs : List Value) (key : String) (i : Nat)
    (acc : List Value) : Except PyError (List Value) :=
  match xs with
  | [] => .ok acc
  | x :: rest =>
      match validateAttr et x (key ++ "[" ++ toString i ++ "]") with
      | .error e => .error e
      | .ok v => setGo et rest key (i + 1) (setAdd acc v)
termination_by sizeOf et + sizeOf xs + 1

end

/-- Lookup in an insertion-ordered embedded Python dict (association list
with unique keys). -/
def assocLookup {α : Type} [DecidableEq α] {β : Type} :
    List (α × β) → α → Option β
  | [], _ => none
  | (k', v) :: rest, k => if k' = k then some v else assocLookup rest k

/-- `d[k] = v` on an embedded Python dict: an existing key keeps its
insertion position, a new key is appended at the end. -/
def dictSet {α : Type} [DecidableEq α] {β : Type}
    (d : List (α × β)) (k : α) (v : β) : List (α × β) :=
  match d with
  | [] => [(k, v)]
  | (k', v') :: rest =>
      if k' = k then (k', v) :: rest else (k', v') :: dictSet rest k v

/-- `del d[k]` on an embedded Python dict (no-op when the key is absent;
call sites guard with a containment test exactly where the source does). -/
def dictDel {α : Type} [DecidableEq α] {β : Type}
    (d : List (α × β)) (k : α) : List (α × β) :=
  match d with
  | [] => []
  | (k', v') :: rest => if k' = k then rest else (k', v') :: dictDel rest k

/-- A registered validator handler, already normalised to the uniform
asynchronous two-argument shape `(value, key)` that `add_validator`
produces via its arity adaptation and `asyncify` (model.py, lines
297-313); a raised exception is an `error` result. -/
abbrev Handler := Value → String → Except PyError Value

/-- The `key_name` argument of `add_validator` and of the `validates`
decorator: a single key, a list of keys, or `None` meaning all keys. -/
inductive KeyName where
  | one (s : String)
  | many (ss : List String)
  | all

/-- Normalisation of a `key_name` to the dict keys it occupies in the
validators dict: `None → [None]`, a string to itself, a list elementwise
(model.py, lines 315-320). -/
def keyNameKeys : KeyName → List (Option String)
  | .all => [none]
  | .one s => [some s]
  | .many ss => ss.map some

/-- `validators[k].append(handler)` with creation on KeyError (model.py,
lines 322-326). -/
def dictAppendHandler (vs : List (Option String × List Handler))
    (k : Option String) (h : Handler) : List (Option String × List Handler) :=
  match assocLookup vs k with
  | some hs => dictSet vs k (hs ++ [h])
  | none => vs ++ [(k, [h])]

/-- The body of `add_validator` after handler normalisation (model.py,
lines 282-326). -/
def addValidatorDict (vs : List (Option String × List Handler))
    (kn : KeyName) (h : Handler) : List (Option String × List Handler) :=
  (keyNameKeys kn).foldl (fun vs k => dictAppendHandler vs k h) vs

/-- The statically declared part of a concrete Model subclass: its
`__annotations__` (in declaration order), its class-level attribute values
(the literal defaults), and its `validates`-decorated methods, given in the
alphabetical order in which the `dir(self)` scan of `__init__` registers
them. -/
structure PyClass where
  annots : List (String × Ty)
  classAttrs : List (String × Value)
  classValidators : List (KeyName × Handler)

/-- The mutable state of a Model instance: `attributes` is the Schema
(`self._attributes`), `items` the Item Store (`self._items`), `defaults`
the Default Store (`self._defaults`), `validators` the Validator Registry
(`self._validators`, keyed by `Option String` with `none` as the wildcard),
`ignored` the Ignored Set (`self._ignored_attrs`), and `plainAttrs` the
instance `__dict__` entries written through `object.__setattr__` for
non-underscore names. -/
structure Model where
  cls : PyClass
  attributes : List (String × Ty)
  items : List (String × Value)
  defaults : List (String × Value)
  validators : List (Option String × List Handler)
  ignored : List String
  plainAttrs : List (String × Value)

/-- `object.__getattribute__(self, name)`: the instance `__dict__` first,
then the class attributes; `Model.__getattr__` is NOT consulted by this
explicit call. -/
def object_getattribute (instAttrs classAttrs : List (String × Value))
    (name : String) : Option Value :=
  match assocLookup instAttrs name with
  | some v => some v
  | none => assocLookup classAttrs name

/-- `object.__delattr__(self, name)`: removes the name from the instance
`__dict__` only; a name that lives on the class (such as a declared literal
default) is not deletable through the instance and raises AttributeError. -/
def object_delattr (instAttrs : List (String × Value)) (name : String) :
    Except PyError (List (String × Value)) :=
  if (assocLookup instAttrs name).isSome then .ok (dictDel instAttrs name)
  else .error (.attributeError name)

/-- The kwargs-cleaning loop of `__init__` (model.py, lines 170-172):
`for key in kwargs: if key.startswith("_"): del kwargs[key]`.  A CPython
dict iterator raises RuntimeError on the step after any deletion (even when
the deleted key was the last one yielded), so the loop completes only when
no key starts with an underscore, and then deletes nothing. -/
def delUnderscoreKwargs (kwargs : List (String × Value)) :
    Except PyError (List (String × Value)) :=
  if kwargs.any (fun p => startsWithUnderscore p.fst) then
    .error (.runtimeError "dictionary changed size during iteration")
  else .ok kwargs

/-- The annotations loop of `__init__` (model.py, lines 183-200), walking
the declared annotations in order.  An underscore-prefixed annotation is
deleted from the live `_attributes` dict, so the next iteration step raises
RuntimeError.  For any other name the source runs
`object.__getattribute__` / `object.__delattr__`: at this point the
instance `__dict__` holds only underscore names (`Model.__setattr__` routes
every non-underscore write into the items dict), so the instance dict
passed for the lookup is empty; the getattribute finds the class-level
default, but the delete then raises AttributeError, the `except
AttributeError: pass` swallows it, `found` stays False and the default is
never recorded.  (`getattr(item, "_rainbows_default", None)` would be
consulted only under `found`; embedded plain values carry no such
attribute.) -/
def annotsLoop : List (String × Ty) → List (String × Value) →
    List (String × Value) →
    Except PyError (List (String × Ty) × List (String × Value))
  | [], _, defaults => .ok ([], defaults)
  | (name, ty) :: rest, classAttrs, defaults =>
      if startsWithUnderscore name then
        .error (.runtimeError "dictionary changed size during iteration")
      else
        let found? : Option Value :=
          match object_getattribute [] classAttrs name with
          | none => none
          | some item =>
              match object_delattr [] name with
              | .error _ => none
              | .ok _ => some item
        let defaults' :=
          match found? with
          | some item => dictSet defaults name item
          | none => defaults
        match annotsLoop rest classAttrs defaults' with
        | .error e => .error e
        | .ok (attrs, ds) => .ok ((name, ty) :: attrs, ds)

/-- `Model.__init__` (model.py, lines 163-200): clean the kwargs of
underscore keys (RuntimeError when any is present), take the survivors as
the Item Store, register the `validates`-decorated methods through the
`add_validator` path, then walk the annotations building the Schema and the
Default Store. -/
def Model.init (cls : PyClass) (kwargs : List (String × Value)) :
    Except PyError Model :=
  match delUnderscoreKwargs kwargs with
  | .error e => .error e
  | .ok kw =>
      let validators :=
        cls.classValidators.foldl
          (fun vs p => addValidatorDict vs p.fst p.snd) []
      match annotsLoop cls.annots cls.classAttrs [] with
      | .error e => .error e
      | .ok (attrs, defaults) =>
          .ok { cls := cls, attributes := attrs, items := kw,
                defaults := defaults, validators := validators,
                ignored := [], plainAttrs := [] }

/-- `Model.add_validator` on an already constructed instance (model.py,
lines 282-326). -/
def Model.add_validator (m : Model) (kn : KeyName) (h : Handler) : Model :=
  { m with validators := addValidatorDict m.validators kn h }

/-- `Model.__setattr__` (model.py, lines 275-280): underscore names and
names in `_ignored_attrs` go to the instance `__dict__`
(`object.__setattr__`), everything else into the items dict. -/
def Model.setattrPy (m : Model) (key : String) (v : Value) : Model :=
  if startsWithUnderscore key || m.ignored.contains key then
    { m with plainAttrs := dictSet m.plainAttrs key v }
  else
    { m with items := dictSet m.items key v }

/-- `Model.ignore_attribute` (model.py, lines 328-347).  The key is
appended to `_ignored_attrs` only at the END of the body; the
`setattr(self, key, self._items[key])` before it therefore still sees the
key as not ignored, so `__setattr__` routes the value straight back into
the items dict, and the following `del self._items[key]` discards it. -/
def Model.ignore_attribute (m : Model) (key : String) : Model :=
  let m1 :=
    if (assocLookup m.defaults key).isSome then
      { m with defaults := dictDel m.defaults key }
    else m
  let m2 :=
    match assocLookup m1.items key with
    | some v =>
        let m' := m1.setattrPy key v
        { m' with items := dictDel m'.items key }
    | none => m1
  { m2 with ignored := m2.ignored ++ [key] }

/-- Attribute read on a Model instance: the default attribute machinery
finds instance `__dict__` entries, then class attributes; on failure
`Model.__getattr__` (model.py, lines 266-273) falls back to the items dict,
then the defaults, then raises AttributeError naming the attribute. -/
def Model.getattrPy (m : Model) (name : String) : Except PyError Value :=
  match assocLookup m.plainAttrs name with
  | some v => .ok v
  | none =>
      match assocLookup m.cls.classAttrs name with
      | some v => .ok v
      | none =>
          match assocLookup m.items name with
          | some v => .ok v
          | none =>
              match assocLookup m.defaults name with
              | some v => .ok v
              | none =>
                  .error (.attributeError ("The attribute '" ++ name
                    ++ "' is not present on this model object."))

/-- `typing.get_origin(value) is typing.Union and type(None) in
typing.get_args(value)` (model.py, line 369): the declared type is a union
one of whose arguments is NoneType. -/
def isNoneType : Ty → Bool
  | .tnone => true
  | _ => false

/-- Whether a type expression counts as optional for the missing-key path
of `validate`. -/
def isOptionalTy : Ty → Bool
  | .tunion args => args.any isNoneType
  | _ => false

/-- The opening loop of `validate` (model.py, lines 355-357): every key of
the items dict must be in the schema. -/
def unknownKeyCheck (items : List (String × Value))
    (attrs : List (String × Ty)) : Except PyError Unit :=
  match items with
  | [] => .ok ()
  | (k, _) :: rest =>
      if (assocLookup attrs k).isNone then
        .error (.validationError ("Key " ++ k
          ++ " has been added to the model contents, but is not in the schema") k)
      else unknownKeyCheck rest attrs

/-- The schema loop of `validate` (model.py, lines 360-378), threading
`all_items` and `self._items`.  For a key absent from `all_items` with a
recorded default, the source rebinds the loop variable `value` — which held
the declared TYPE — to the default value (`value = self._defaults[key]`),
so the subsequent `_validate_attr(value, all_items[key], key)` receives a
plain value in type position: it is not a typing construct, not a key of
BUILT_IN_VALIDATORS, and has no `__validate__`, so that call raises the
TypeError of model.py lines 70-71. -/
def validateKeys : List (String × Ty) → List (String × Value) →
    List (String × Value) → List (String × Value) →
    Except PyError (List (String × Value) × List (String × Value))
  | [], _, allItems, items => .ok (allItems, items)
  | (key, ty) :: rest, defaults, allItems, items =>
      match assocLookup allItems key with
      | none =>
          match assocLookup defaults key with
          | some _ => .error (noBuiltInTypeError key)
          | none =>
              if isOptionalTy ty then
                validateKeys rest defaults (dictSet allItems key .vnull) items
              else
                .error (.validationError ("Key " ++ key
                  ++ " is not optional and was not found in the models contents") key)
      | some cur =>
          match validateAttr ty cur key with
          | .error e => .error e
          | .ok v =>
              validateKeys rest defaults (dictSet allItems key v)
                (dictSet items key v)

/-- Sequential application of a handler chain, each handler receiving the
previous handler's result (`for h in handlers: value = await h(value, key)`). -/
def applyHandlers (hs : List Handler) (v : Value) (k : String) :
    Except PyError Value :=
  match hs with
  | [] => .ok v
  | h :: rest =>
      match h v k with
      | .error e => .error e
      | .ok v' => applyHandlers rest v' k

/-- The inner `call_validators` closure of `validate` (model.py, lines
382-389): when the key has no key-specific chain the `except KeyError`
branch executes a bare `return`, so the Python function yields None — the
caller then stores that None as the attribute's value. -/
def callValidators (vs : List (Option String × List Handler)) (v : Value)
    (k : String) : Except PyError Value :=
  match assocLookup vs (some k) with
  | none => .ok .vnull
  | some hs => applyHandlers hs v k

/-- The custom-validator loop of `validate` (model.py, lines 391-399):
for each entry of `all_items`, first the wildcard chain, then
`call_validators`, and the result is written into both `all_items` and
`self._items`. -/
def validatorPhase (vs : List (Option String × List Handler))
    (gobbler : List Handler) : List (String × Value) →
    List (String × Value) → List (String × Value) →
    Except PyError (List (String × Value) × List (String × Value))
  | [], accAll, accItems => .ok (accAll, accItems)
  | (k, v) :: rest, accAll, accItems =>
      match applyHandlers gobbler v k with
      | .error e => .error e
      | .ok v1 =>
          match callValidators vs v1 k with
          | .error e => .error e
          | .ok v2 =>
              validatorPhase vs gobbler rest (dictSet accAll k v2)
                (dictSet accItems k v2)

/-- `Model.validate` (model.py, lines 349-401): unknown-key check, schema
loop, then — only when any validators are registered (`if
custom_validators:`) — the custom-validator phase; returns the resulting
mapping and the updated instance. -/
def Model.validate (m : Model) :
    Except PyError (List (String × Value) × Model) :=
  match unknownKeyCheck m.items m.attributes with
  | .error e => .error e
  | .ok _ =>
      match validateKeys m.attributes m.defaults m.items m.items with
      | .error e => .error e
      | .ok (allItems, items1) =>
          if m.validators.isEmpty then
            .ok (allItems, { m with items := items1 })
          else
            match validatorPhase m.validators
                ((assocLookup m.validators (none : Option String)).getD [])
                allItems allItems items1 with
            | .error e => .error e
            | .ok (r, items2) => .ok (r, { m with items := items2 })

/-! Concrete model classes and instances used to settle individual claims. -/

/-- The identity validator handler `lambda v: v` (arity-adapted shape). -/
def idHandler : Handler := fun v _ => .ok v

/-- A model class declaring `table_name: str` with no default (the spec's
ignored-attribute example). -/
def c2Class : PyClass := ⟨[("table_name", .tstr)], [], []⟩

/-- The instance state `Model(table_name="foo")` builds for `c2Class`. -/
def c2ModelInit : Model :=
  { cls := c2Class, attributes := [("table_name", .tstr)],
    items := [("table_name", .vstr "foo")], defaults := [], validators := [],
    ignored := [], plainAttrs := [] }

/-- The same instance after `ignore_attribute("table_name")`: the supplied
value has been written back into the items dict and then deleted, so it
survives nowhere. -/
def c2ModelIgnored : Model :=
  { cls := c2Class, attributes := [("table_name", .tstr)], items := [],
    defaults := [], validators := [], ignored := ["table_name"],
    plainAttrs := [] }

/-- A model class declaring `a: int = 5` (class-level literal default). -/
def c3Class : PyClass := ⟨[("a", .tint)], [("a", .vint 5)], []⟩

/-- The instance state `Model()` builds for `c3Class`: the Default Store
comes out empty because `object.__delattr__` cannot delete the class-level
literal. -/
def c3Model : Model :=
  { cls := c3Class, attributes := [("a", .tint)], items := [], defaults := [],
    validators := [], ignored := [], plainAttrs := [] }

/-- A model class declaring `a: int`, used with an underscore-prefixed
keyword argument. -/
def c8Class : PyClass := ⟨[("a", .tint)], [], []⟩

/-- A model class declaring `t: Union[bool, str]` — an attribute whose NAME
is in the boolean coercer's vocabulary. -/
def c9Class : PyClass := ⟨[("t", .tunion [.tbool, .tstr])], [], []⟩

/-- The instance state `Model(t=5)` builds for `c9Class`. -/
def c9Model : Model :=
  { cls := c9Class, attributes := [("t", .tunion [.tbool, .tstr])],
    items := [("t", .vint 5)], defaults := [], validators := [],
    ignored := [], plainAttrs := [] }

/-- `c9Model` after a first `validate()`: the int 5 was coerced by the str
branch of the union. -/
def c9ModelA : Model := { c9Model with items := [("t", .vstr "5")] }

/-- `c9ModelA` after a second `validate()`: the bool branch now matches the
string value because the coercer inspects the lower-cased KEY `"t"`. -/
def c9ModelB : Model := { c9Model with items := [("t", .vbool true)] }

/-- An instance declaring an absent optional field `k: Optional[int]` with
no default and no validators. -/
def c6Model : Model :=
  { cls := ⟨[("k", .tunion [.tint, .tnone])], [], []⟩,
    attributes := [("k", .tunion [.tint, .tnone])], items := [],
    defaults := [], validators := [], ignored := [], plainAttrs := [] }

/-- An instance declaring `a: int` with value 3 and no validators yet. -/
def c10Base : Model :=
  { cls := ⟨[("a", .tint)], [], []⟩, attributes := [("a", .tint)],
    items := [("a", .vint 3)], defaults := [], validators := [],
    ignored := [], plainAttrs := [] }

/-- `c10Base` with a single wildcard (all-keys) identity validator
registered through `add_validator`. -/
def c10Model : Model := c10Base.add_validator .all idHandler

/-- `c10Model` after `validate()`: the coerced value of `a` has been
replaced by None. -/
def c10ModelAfter : Model := { c10Model with items := [("a", .vnull)] }

/-! General lemmas about the embedded dict operations. -/

theorem assocLookup_mem {α β : Type} [DecidableEq α] {d : List (α × β)}
    {k : α} {v : β} (h : assocLookup d k = some v) : (k, v) ∈ d := by
  induction d with
  | nil => simp [assocLookup] at h
  | cons p rest ih =>
      obtain ⟨k', v'⟩ := p
      by_cases hk : k' = k
      · subst hk
        simp only [assocLookup, if_true, eq_self_iff_true, Option.some.injEq] at h
        subst h
        exact List.mem_cons_self _ _
      · simp only [assocLookup, if_neg hk] at h
        exact List.mem_cons_of_mem _ (ih h)

theorem assocLookup_dictSet_self {α β : Type} [DecidableEq α]
    (d : List (α × β)) (k : α) (v : β) :
    assocLookup (dictSet d k v) k = some v := by
  induction d with
  | nil => simp [dictSet, assocLookup]
  | cons p rest ih =>
      obtain ⟨k', v'⟩ := p
      by_cases hk : k' = k
      · subst hk; simp [dictSet, assocLookup]
      · simp [dictSet, assocLookup, hk, ih]

theorem assocLookup_dictSet_ne {α β : Type} [DecidableEq α]
    (d : List (α × β)) (k k' : α) (v : β) (h : k' ≠ k) :
    assocLookup (dictSet d k' v) k = assocLookup d k := by
  induction d with
  | nil => simp [dictSet, assocLookup, h]
  | cons p rest ih =>
      obtain ⟨k0, v0⟩ := p
      by_cases h0 : k0 = k'
      · subst h0; simp [dictSet, assocLookup, h]
      · simp [dictSet, assocLookup, h0, ih]

theorem mem_keys_dictSet {α β : Type} [DecidableEq α]
    (d : List (α × β)) (k a : α) (v : β) :
    a ∈ (dictSet d k v).map Prod.fst ↔ a ∈ d.map Prod.fst ∨ a = k := by
  induction d with
  | nil => simp [dictSet]
  | cons p rest ih =>
      obtain ⟨k', v'⟩ := p
      by_cases hk : k' = k
      · subst hk
        simp [dictSet]
        tauto
      · simp [dictSet, hk, ih]
        tauto

theorem nodup_keys_dictSet {α β : Type} [DecidableEq α]
    (d : List (α × β)) (k : α) (v : β)
    (h : (d.map Prod.fst).Nodup) : ((dictSet d k v).map Prod.fst).Nodup := by
  induction d with
  | nil => simp [dictSet]
  | cons p rest ih =>
      obtain ⟨k', v'⟩ := p
      simp only [List.map_cons, List.nodup_cons] at h
      obtain ⟨hnot, hrest⟩ := h
      by_cases hk : k' = k
      · subst hk
        simp only [dictSet, if_true, eq_self_iff_true, List.map_cons, List.nodup_cons]
        exact ⟨hnot, hrest⟩
      · simp only [dictSet, if_neg hk, List.map_cons, List.nodup_cons]
        refine ⟨?_, ih hrest⟩
        intro hmem
        rcases (mem_keys_dictSet rest k k' v).mp hmem with h1 | h2
        · exact hnot h1
        · exact hk h2

/-! General lemmas about the schema loop and the custom-validator phase. -/

theorem validateKeys_lookup_preserved
    (attrs : List (String × Ty)) (defaults : List (String × Value)) :
    ∀ (A I r i' : List (String × Value)) (k : String),
      validateKeys attrs defaults A I = .ok (r, i') →
      (∀ p ∈ attrs, p.fst ≠ k) →
      assocLookup r k = assocLookup A k := by
  induction attrs with
  | nil =>
      intro A I r i' k h _
      simp only [validateKeys, Except.ok.injEq, Prod.mk.injEq] at h
      rw [h.1]
  | cons p rest ih =>
      intro A I r i' k h hk
      obtain ⟨key, ty⟩ := p
      have hkey : key ≠ k := hk (key, ty) (List.mem_cons_self _ _)
      have hrestne : ∀ q ∈ rest, q.fst ≠ k :=
        fun q hq => hk q (List.mem_cons_of_mem _ hq)
      simp only [validateKeys] at h
      split at h
      · split at h
        · exact Except.noConfusion h
        · split at h
          · rw [ih _ _ _ _ _ h hrestne,
              assocLookup_dictSet_ne A k key Value.vnull hkey]
          · exact Except.noConfusion h
      · split at h
        · exact Except.noConfusion h
        · rw [ih _ _ _ _ _ h hrestne, assocLookup_dictSet_ne A k key _ hkey]

theorem validateKeys_nodup
    (attrs : List (String × Ty)) (defaults : List (String × Value)) :
    ∀ (A I r i' : List (String × Value)),
      validateKeys attrs defaults A I = .ok (r, i') →
      (A.map Prod.fst).Nodup → (r.map Prod.fst).Nodup := by
  induction attrs with
  | nil =>
      intro A I r i' h hA
      simp only [validateKeys, Except.ok.injEq, Prod.mk.injEq] at h
      rw [← h.1]
      exact hA
  | cons p rest ih =>
      intro A I r i' h hA
      obtain ⟨key, ty⟩ := p
      simp only [validateKeys] at h
      split at h
      · split at h
        · exact Except.noConfusion h
        · split at h
          · exact ih _ _ _ _ h (nodup_keys_dictSet A key Value.vnull hA)
          · exact Except.noConfusion h
      · split at h
        · exact Except.noConfusion h
        · exact ih _ _ _ _ h (nodup_keys_dictSet A key _ hA)

theorem validateKeys_optional_null
    (attrs : List (String × Ty)) (defaults : List (String × Value)) :
    ∀ (A I r i' : List (String × Value)) (k : String) (ty : Ty),
      validateKeys attrs defaults A I = .ok (r, i') →
      (attrs.map Prod.fst).Nodup →
      (k, ty) ∈ attrs →
      assocLookup A k = none →
      assocLookup defaults k = none →
      isOptionalTy ty = true →
      assocLookup r k = some Value.vnull := by
  induction attrs with
  | nil =>
      intro A I r i' k ty _ _ hmem
      exact absurd hmem (List.not_mem_nil _)
  | cons p rest ih =>
      intro A I r i' k ty h hnod hmem hA hd hopt
      obtain ⟨key, ty'⟩ := p
      simp only [List.map_cons, List.nodup_cons] at hnod
      obtain ⟨hknotin, hnodrest⟩ := hnod
      rcases List.mem_cons.mp hmem with heq | hmemrest
      · injection heq with hk1 hk2
        subst hk1
        subst hk2
        simp only [validateKeys, hA, hd] at h
        rw [if_pos hopt] at h
        have hrestne : ∀ q ∈ rest, q.fst ≠ k := by
          intro q hq hqk
          exact hknotin (hqk ▸ List.mem_map_of_mem Prod.fst hq)
        rw [validateKeys_lookup_preserved rest defaults _ _ _ _ _ h hrestne,
          assocLookup_dictSet_self A k Value.vnull]
      · have hkey : key ≠ k := by
          intro hkk
          exact hknotin (hkk ▸ List.mem_map_of_mem Prod.fst hmemrest)
        simp only [validateKeys] at h
        split at h
        · split at h
          · exact Except.noConfusion h
          · split at h
            · exact ih _ _ _ _ _ _ h hnodrest hmemrest
                (by rw [assocLookup_dictSet_ne A k key Value.vnull hkey]; exact hA)
                hd hopt
            · exact Except.noConfusion h
        · split at h
          · exact Except.noConfusion h
          · exact ih _ _ _ _ _ _ h hnodrest hmemrest
              (by rw [assocLookup_dictSet_ne A k key _ hkey]; exact hA)
              hd hopt

theorem validateKeys_covers
    (attrs : List (String × Ty)) (defaults : List (String × Value)) :
    ∀ (A I r i' : List (String × Value)) (k : String) (ty : Ty),
      validateKeys attrs defaults A I = .ok (r, i') →
      (attrs.map Prod.fst).Nodup →
      (k, ty) ∈ attrs →
      ∃ v, assocLookup r k = some v := by
  induction attrs with
  | nil =>
      intro A I r i' k ty _ _ hmem
      exact absurd hmem (List.not_mem_nil _)
  | cons p rest ih =>
      intro A I r i' k ty h hnod hmem
      obtain ⟨key, ty'⟩ := p
      simp only [List.map_cons, List.nodup_cons] at hnod
      obtain ⟨hknotin, hnodrest⟩ := hnod
      rcases List.mem_cons.mp hmem with heq | hmemrest
      · injection heq with hk1 hk2
        subst hk1
        subst hk2
        have hrestne : ∀ q ∈ rest, q.fst ≠ k := by
          intro q hq hqk
          exact hknotin (hqk ▸ List.mem_map_of_mem Prod.fst hq)
        simp only [validateKeys] at h
        split at h
        · split at h
          · exact Except.noConfusion h
          · split at h
            · exact ⟨Value.vnull,
                by rw [validateKeys_lookup_preserved rest defaults _ _ _ _ _ h hrestne,
                  assocLookup_dictSet_self]⟩
            · exact Except.noConfusion h
        · split at h
          · exact Except.noConfusion h
          · rename_i cur hcur v hval
            exact ⟨v,
              by rw [validateKeys_lookup_preserved rest defaults _ _ _ _ _ h hrestne,
                assocLookup_dictSet_self]⟩
      · simp only [validateKeys] at h
        split at h
        · split at h
          · exact Except.noConfusion h
          · split at h
            · exact ih _ _ _ _ _ _ h hnodrest hmemrest
            · exact Except.noConfusion h
        · split at h
          · exact Except.noConfusion h
          · exact ih _ _ _ _ _ _ h hnodrest hmemrest

theorem validatorPhase_lookup_preserved
    (vs : List (Option String × List Handler)) (gobbler : List Handler)
    (todo : List (String × Value)) :
    ∀ (accAll accItems r i' : List (String × Value)) (k : String),
      validatorPhase vs gobbler todo accAll accItems = .ok (r, i') →
      (∀ p ∈ todo, p.fst ≠ k) →
      assocLookup r k = assocLookup accAll k ∧
        assocLookup i' k = assocLookup accItems k := by
  induction todo with
  | nil =>
      intro accAll accItems r i' k h _
      simp only [validatorPhase, Except.ok.injEq, Prod.mk.injEq] at h
      rw [h.1, h.2]
      exact ⟨rfl, rfl⟩
  | cons p rest ih =>
      intro accAll accItems r i' k h hk
      obtain ⟨key, v⟩ := p
      have hkey : key ≠ k := hk (key, v) (List.mem_cons_self _ _)
      have hrestne : ∀ q ∈ rest, q.fst ≠ k :=
        fun q hq => hk q (List.mem_cons_of_mem _ hq)
      simp only [validatorPhase] at h
      split at h
      · exact Except.noConfusion h
      · split at h
        · exact Except.noConfusion h
        · obtain ⟨h1, h2⟩ := ih _ _ _ _ _ h hrestne
          rw [h1, h2, assocLookup_dictSet_ne accAll k key _ hkey,
            assocLookup_dictSet_ne accItems k key _ hkey]
          exact ⟨rfl, rfl⟩

theorem validatorPhase_nochain
    (vs : List (Option String × List Handler)) (gobbler : List Handler)
    (todo : List (String × Value)) :
    ∀ (accAll accItems r i' : List (String × Value)) (k : String) (v : Value),
      validatorPhase vs gobbler todo accAll accItems = .ok (r, i') →
      (todo.map Prod.fst).Nodup →
      (k, v) ∈ todo →
      assocLookup vs (some k) = none →
      assocLookup r k = some Value.vnull ∧
        assocLookup i' k = some Value.vnull := by
  induction todo with
  | nil =>
      intro accAll accItems r i' k v _ _ hmem
      exact absurd hmem (List.not_mem_nil _)
  | cons p rest ih =>
      intro accAll accItems r i' k v h hnod hmem hchain
      obtain ⟨key, v'⟩ := p
      simp only [List.map_cons, List.nodup_cons] at hnod
      obtain ⟨hknotin, hnodrest⟩ := hnod
      rcases List.mem_cons.mp hmem with heq | hmemrest
      · injection heq with hk1 hk2
        subst hk1
        subst hk2
        have hrestne : ∀ q ∈ rest, q.fst ≠ k := by
          intro q hq hqk
          exact hknotin (hqk ▸ List.mem_map_of_mem Prod.fst hq)
        simp only [validatorPhase] at h
        split at h
        · exact Except.noConfusion h
        · rename_i v1 hv1
          rw [callValidators, hchain] at h
          obtain ⟨h1, h2⟩ :=
            validatorPhase_lookup_preserved vs gobbler rest _ _ _ _ _ h hrestne
          rw [h1, h2, assocLookup_dictSet_self, assocLookup_dictSet_self]
          exact ⟨rfl, rfl⟩
      · have hkey : key ≠ k := by
          intro hkk
          exact hknotin (hkk ▸ List.mem_map_of_mem Prod.fst hmemrest)
        simp only [validatorPhase] at h
        split at h
        · exact Except.noConfusion h
        · split at h
          · exact Except.noConfusion h
          · exact ih _ _ _ _ _ _ h hnodrest hmemrest hchain

/-- Dissection of a successful `Model.validate` run into its phases. -/
theorem validate_ok_destruct (m : Model) (r : List (String × Value))
    (m' : Model) (hv : m.validate = .ok (r, m')) :
    ∃ allItems items1,
      validateKeys m.attributes m.defaults m.items m.items
          = .ok (allItems, items1) ∧
      ((m.validators.isEmpty = true ∧ r = allItems ∧ m'.items = items1) ∨
        (m.validators.isEmpty = false ∧
          validatorPhase m.validators
            ((assocLookup m.validators (none : Option String)).getD [])
            allItems allItems items1 = .ok (r, m'.items))) := by
  unfold Model.validate at hv
  split at hv
  · exact Except.noConfusion hv
  · split at hv
    · exact Except.noConfusion hv
    · rename_i allItems items1 hvk
      split at hv
      · rename_i hemp
        injection hv with hpair
        injection hpair with h1 h2
        refine ⟨allItems, items1, hvk, Or.inl ⟨hemp, h1.symm, ?_⟩⟩
        exact (congrArg Model.items h2).symm
      · rename_i hemp
        split at hv
        · exact Except.noConfusion hv
        · rename_i r2 items2 hph
          injection hv with hpair
          injection hpair with h1 h2
          subst h1
          refine ⟨allItems, items1, hvk,
            Or.inr ⟨Bool.not_eq_true _ ▸ hemp, ?_⟩⟩
          rw [← h2]
          exact hph

/-- The union branch loop returns the first success: when every earlier
branch fails with a caught exception kind and a branch succeeds, its result
is returned, whatever errors were remembered so far. -/
theorem unionGo_first_success (item : Value) (key : String) (t : Ty)
    (post : List Ty) (v : Value) (ht : validateAttr t item key = .ok v) :
    ∀ (pre : List Ty) (last : Option PyError),
      (∀ t' ∈ pre, ∃ e, validateAttr t' item key = .error e ∧ caughtByUnion e = true) →
      unionGo (pre ++ t :: post) item key last = .ok v := by
  intro pre
  induction pre with
  | nil =>
      intro last _
      rw [List.nil_append]
      simp only [unionGo, ht]
  | cons p ps ih =>
      intro last hp
      obtain ⟨e, he, hc⟩ := hp p (List.mem_cons_self p ps)
      rw [List.cons_append]
      simp only [unionGo, he, hc, if_true]
      exact ih (some e) (fun t' h => hp t' (List.mem_cons_of_mem p h))

/-- Evaluation of the schema loop on a one-field model whose value is
present and coerces successfully. -/
theorem vk_single (k : String) (ty : Ty) (v w : Value)
    (h : validateAttr ty v k = .ok w) :
    validateKeys [(k, ty)] [] [(k, v)] [(k, v)] = .ok ([(k, w)], [(k, w)]) := by
  simp only [validateKeys, assocLookup, eq_self_iff_true, if_true, h, dictSet]

/-! The claims. -/

/-- Claim C1.  The claim states the boolean coercer compares the lower-cased
input VALUE against the yes/true/y/t and no/false/n/f vocabulary, so that the
value "Yes" coerces to true under any key and "maybe" always raises.  The
code instead lower-cases the KEY NAME (`l = key.lower()` in
builtin_validators.py line 33): under the key "enabled" the value "Yes"
raises ValidationError, while under the key "t" the value "maybe" comes back
as true.  This contradicts the module's own documentation ("we do want to
allow items that are very likely to be correct ... for example "true"
instead of true"), so the code, not the claim, is the bug. -/
theorem c1_bool_coercer_compares_key_not_value :
    validate_bool "enabled" (.vstr "Yes")
        = .error (.validationError
            "The value of key enabled is of type <class 'str'>, expected bool compatible" "enabled")
    ∧ validate_bool "t" (.vstr "maybe") = .ok (.vbool true) := ⟨rfl, rfl⟩

/-- Claim C2.  The claim states that after `ignore_attribute("table_name")`
a supplied value stays readable as a plain attribute and `validate()` no
longer requires or checks the key.  In the code the value is written back
into the items dict (the key is appended to `_ignored_attrs` only after the
`setattr`) and then deleted — so it is lost, and `validate()` still walks
the untouched `_attributes` schema and raises "not optional and was not
found" for the key.  This contradicts the method's own docstring ("An
ignored attribute will not ... count in validation"), so the code is the
bug. -/
theorem c2_ignore_attribute_value_lost_and_key_still_required :
    Model.init c2Class [("table_name", Value.vstr "foo")] = .ok c2ModelInit
    ∧ c2ModelInit.ignore_attribute "table_name" = c2ModelIgnored
    ∧ c2ModelIgnored.validate
        = .error (.validationError
            "Key table_name is not optional and was not found in the models contents" "table_name")
    ∧ c2ModelIgnored.getattrPy "table_name"
        = .error (.attributeError "The attribute 'table_name' is not present on this model object.") :=
  ⟨rfl, rfl, rfl, rfl⟩

/-- Claim C3.  The claim states a class-level literal default is recorded in
the Default Store at construction and used by `validate()` for an absent
key.  In the code `object.__delattr__(self, attr_name)` raises
AttributeError for a class-level attribute, the `except AttributeError:
pass` swallows it, `found` stays False and the default is never stored: for
`a: int = 5` the Default Store is empty and `validate()` on an instance
without `a` raises instead of using 5.  The docstring promises defaults
work ("You can set a default result with \x22 = <default>\x22"), so the
code is the bug. -/
theorem c3_class_literal_default_never_recorded :
    Model.init c3Class [] = .ok c3Model
    ∧ c3Model.defaults = []
    ∧ c3Model.validate
        = .error (.validationError
            "Key a is not optional and was not found in the models contents" "a") := ⟨rfl, rfl, rfl⟩

/-- Claim C4.  The claim states a null value validated against an Optional
union returns null immediately through the fast path.  The fast path tests
`None in types`, but `typing.get_args` yields NoneType — never the None
object — so the test is always False; the branch loop then runs, the int
branch raises ValidationError, the NoneType branch raises TypeError (no
registered coercer, no `__validate__`), and `last_throw` — the TypeError —
is re-raised.  The "Fast path!" comment documents the intent the code
misses, so the code is the bug. -/
theorem c4_null_against_optional_union_raises :
    validateAttr (.tunion [.tint, .tnone]) Value.vnull "k"
      = .error (.typeError
          "The type parameter for k does not have __validate__ and is not a recognised built-in type") := by
  simp [validateAttr, unionGo, validate_int, caughtByUnion, noBuiltInTypeError, validationTypeMsg, pyTypeName]

/-- Claim C5, counterexample.  As stated — "the first branch that validates
without error wins" for every union and non-null value — the claim fails:
for `Union[datetime, str]` with value "zzz" the str branch validates without
error, yet the union raises, because the datetime branch's ValueError is not
in the loop's `except (TypeError, ValidationError)` clause and propagates
immediately. -/
theorem c5_uncaught_valueerror_aborts_union :
    validateAttr (.tunion [.tdatetime, .tstr]) (.vstr "zzz") "k"
        = .error (.valueError "Invalid isoformat string: 'zzz'")
    ∧ validateAttr .tstr (.vstr "zzz") "k" = .ok (.vstr "zzz") := by
  have hdt : validate_datetime "k" (.vstr "zzz")
      = .error (.valueError "Invalid isoformat string: 'zzz'") := rfl
  constructor
  · simp only [validateAttr, unionGo, hdt, caughtByUnion]
    rfl
  · simp [validateAttr, validate_str]

/-- Claim C5, amended.  Union branches are tried in declared order and the
first branch that validates without error wins and returns its result,
PROVIDED every earlier branch fails with a TypeError or a ValidationError
(the kinds the loop catches); a branch failing with any other exception
propagates immediately.  (`typing.get_args` never yields the literal None,
so every argument counts as a non-null branch and the order is exactly the
declared one.) -/
theorem c5_union_first_caught_success_wins
    (pre : List Ty) (t : Ty) (post : List Ty) (item : Value)
    (key : String) (v : Value)
    (hpre : ∀ t' ∈ pre, ∃ e, validateAttr t' item key = .error e ∧ caughtByUnion e = true)
    (ht : validateAttr t item key = .ok v) :
    validateAttr (.tunion (pre ++ t :: post)) item key = .ok v := by
  have h := unionGo_first_success item key t post v ht pre none hpre
  simp only [validateAttr]
  exact h

/-- Claim C5, witness: the spec's own example — `Union[int, str]` with input
"7" — resolves through the first (int) branch to the integer 7. -/
theorem c5_union_first_caught_success_wins_witness :
    validateAttr (.tunion [.tint, .tstr]) (.vstr "7") "k" = .ok (.vint 7) := by
  have h7 : validateAttr .tint (.vstr "7") "k" = .ok (.vint 7) := by
    simp only [validateAttr]
    rfl
  exact c5_union_first_caught_success_wins [] .tint [.tstr] (.vstr "7") "k" (.vint 7)
    (by intro t' h; exact absurd h (List.not_mem_nil t')) h7

/-- Claim C6.  A declared optional field absent from the Item Store with no
default and no key-specific validator chain comes out null in the mapping a
successful `validate()` returns.  The schema loop assigns None and
`continue`s, so the Type Expression Validator is never invoked for the
field — the witness below exercises exactly the type for which invoking it
on null WOULD raise (see C4), and validation still succeeds. -/
theorem c6_optional_absent_assigns_null
    (m : Model) (k : String) (ty : Ty)
    (hnodA : (m.attributes.map Prod.fst).Nodup)
    (hnodI : (m.items.map Prod.fst).Nodup)
    (hmem : (k, ty) ∈ m.attributes)
    (hopt : isOptionalTy ty = true)
    (hitem : assocLookup m.items k = none)
    (hdef : assocLookup m.defaults k = none)
    (hchain : assocLookup m.validators (some k) = none)
    (r : List (String × Value)) (m' : Model)
    (hv : m.validate = .ok (r, m')) :
    assocLookup r k = some Value.vnull := by
  obtain ⟨allItems, items1, hvk, hrest⟩ := validate_ok_destruct m r m' hv
  have hAll : assocLookup allItems k = some Value.vnull :=
    validateKeys_optional_null m.attributes m.defaults m.items m.items
      allItems items1 k ty hvk hnodA hmem hitem hdef hopt
  rcases hrest with ⟨_, hre, _⟩ | ⟨_, hph⟩
  · rw [hre]; exact hAll
  · have hnodAll : (allItems.map Prod.fst).Nodup :=
      validateKeys_nodup m.attributes m.defaults m.items m.items
        allItems items1 hvk hnodI
    exact (validatorPhase_nochain m.validators
      ((assocLookup m.validators (none : Option String)).getD [])
      allItems allItems items1 r m'.items k Value.vnull hph hnodAll
      (assocLookup_mem hAll) hchain).1

/-- Claim C6, witness: `k: Optional[int]` absent from the items, no default,
no validators — `validate()` succeeds and returns null for `k`, although
validating null against `Union[int, NoneType]` directly raises (C4). -/
theorem c6_optional_absent_assigns_null_witness :
    isOptionalTy (.tunion [.tint, .tnone]) = true
    ∧ assocLookup ([("k", Value.vnull)] : List (String × Value)) "k" = some Value.vnull :=
  ⟨rfl, c6_optional_absent_assigns_null c6Model "k" (.tunion [.tint, .tnone])
    (by simp [c6Model]) (by simp [c6Model]) (by simp [c6Model])
    rfl rfl rfl rfl [("k", Value.vnull)] c6Model rfl⟩

/-- Claim C7.  The claim states every primitive coercer failure is a
ValidationError naming the key — in particular the datetime coercer on
every unparseable string.  In the code the string branch runs
`fromtimestamp(int(x))` under `except ValueError: return fromisoformat(x)`:
when fromisoformat itself fails, its ValueError escapes uncaught, so the
caller sees a ValueError carrying no key instead of a ValidationError.  The
function's trailing `raise ValidationError(...)` shows the intended
behaviour, so the code is the bug. -/
theorem c7_datetime_unparseable_string_valueerror :
    validate_datetime "ts" (.vstr "garbage")
      = .error (.valueError "Invalid isoformat string: 'garbage'") := rfl

/-- Claim C8.  The claim states construction silently drops every
underscore-prefixed key of the supplied mapping.  The cleaning loop
`for key in kwargs: if key.startswith("_"): del kwargs[key]` deletes from
the dict being iterated, so CPython raises RuntimeError on the following
iterator step: construction with any underscore-prefixed key present fails
instead of dropping it.  The intent to drop is plain from the loop itself
(and the spec), so the code is the bug. -/
theorem c8_underscore_kwargs_raise_runtime_error :
    Model.init c8Class [("_hidden", Value.vint 1), ("a", Value.vint 2)]
      = .error (.runtimeError "dictionary changed size during iteration") := rfl

/-- Claim C9.  The claim states `validate()` is idempotent: two successive
calls with no intervening mutation return identical mappings.  For
`t: Union[bool, str]` with `t=5` the first call coerces 5 through the str
branch (the bool branch rejects an int) and stores "5"; the second call
feeds the stored string "5" to the bool branch, which — because of the C1
key-name bug — matches the lower-cased KEY "t" against the vocabulary and
returns True.  The two mappings differ, purely as a consequence of the
boolean coercer inspecting the key, so the code, not the claim, is the
bug. -/
theorem c9_validate_not_idempotent :
    Model.init c9Class [("t", Value.vint 5)] = .ok c9Model
    ∧ c9Model.validate = .ok ([("t", Value.vstr "5")], c9ModelA)
    ∧ c9ModelA.validate = .ok ([("t", Value.vbool true)], c9ModelB)
    ∧ ([("t", Value.vstr "5")] : List (String × Value)) ≠ [("t", Value.vbool true)] := by
  have hb5 : validate_bool "t" (.vint 5)
      = .error (.validationError "The value of key t is of type <class 'int'>, expected bool compatible" "t") := rfl
  have hs5 : validate_str "t" (.vint 5) = .ok (.vstr "5") := rfl
  have hbs : validate_bool "t" (.vstr "5") = .ok (.vbool true) := rfl
  have h1 : validateAttr (.tunion [.tbool, .tstr]) (.vint 5) "t" = .ok (.vstr "5") := by
    simp only [validateAttr, unionGo, hb5, hs5, caughtByUnion]
    rfl
  have h2 : validateAttr (.tunion [.tbool, .tstr]) (.vstr "5") "t" = .ok (.vbool true) := by
    simp only [validateAttr, unionGo, hbs]
  have hvk1 := vk_single "t" (.tunion [.tbool, .tstr]) (.vint 5) (.vstr "5") h1
  have hvk2 := vk_single "t" (.tunion [.tbool, .tstr]) (.vstr "5") (.vbool true) h2
  refine ⟨rfl, ?_, ?_, by simp⟩
  · simp only [Model.validate, c9Model, c9Class, unknownKeyCheck, assocLookup, Option.isNone,
      eq_self_iff_true, if_true, hvk1, List.isEmpty, c9ModelA]
    rfl
  · simp only [Model.validate, c9ModelA, c9Model, c9Class, unknownKeyCheck, assocLookup, Option.isNone,
      eq_self_iff_true, if_true, hvk2, List.isEmpty, c9ModelB]
    rfl

/-- Claim C10.  With at least one validator registered, a successful
`validate()` replaces the value of every attribute that has no key-specific
validator chain by None, in the returned mapping and in the Item Store: the
inner `call_validators` hits `except KeyError: return` — a bare return —
and the resulting Python None is stored as the attribute's value, after the
wildcard chain already ran. -/
theorem c10_unchained_attributes_set_to_none
    (m : Model) (k : String) (ty : Ty)
    (hnodA : (m.attributes.map Prod.fst).Nodup)
    (hnodI : (m.items.map Prod.fst).Nodup)
    (hmem : (k, ty) ∈ m.attributes)
    (hvs : m.validators ≠ [])
    (hchain : assocLookup m.validators (some k) = none)
    (r : List (String × Value)) (m' : Model)
    (hv : m.validate = .ok (r, m')) :
    assocLookup r k = some Value.vnull
      ∧ assocLookup m'.items k = some Value.vnull := by
  obtain ⟨allItems, items1, hvk, hrest⟩ := validate_ok_destruct m r m' hv
  rcases hrest with ⟨hemp, _, _⟩ | ⟨_, hph⟩
  · exact absurd (by simpa using hemp) hvs
  · obtain ⟨v, hAll⟩ := validateKeys_covers m.attributes m.defaults m.items m.items
      allItems items1 k ty hvk hnodA hmem
    have hnodAll : (allItems.map Prod.fst).Nodup :=
      validateKeys_nodup m.attributes m.defaults m.items m.items
        allItems items1 hvk hnodI
    exact validatorPhase_nochain m.validators
      ((assocLookup m.validators (none : Option String)).getD [])
      allItems allItems items1 r m'.items k v hph hnodAll
      (assocLookup_mem hAll) hchain

/-- Claim C10, witness: `a: int` with value 3 and a single wildcard identity
validator — `validate()` succeeds and both the returned mapping and the
Item Store hold None for `a`, the coerced 3 having been discarded. -/
theorem c10_unchained_attributes_set_to_none_witness :
    assocLookup ([("a", Value.vnull)] : List (String × Value)) "a" = some Value.vnull
    ∧ assocLookup c10ModelAfter.items "a" = some Value.vnull := by
  have hint : validateAttr .tint (.vint 3) "a" = .ok (.vint 3) := by
    simp only [validateAttr]
    rfl
  have hvk := vk_single "a" .tint (.vint 3) (.vint 3) hint
  have hv10 : c10Model.validate = .ok ([("a", Value.vnull)], c10ModelAfter) := by
    simp only [Model.validate, c10Model, c10Base, Model.add_validator, addValidatorDict,
      keyNameKeys, dictAppendHandler, assocLookup, List.foldl, unknownKeyCheck,
      Option.isNone, eq_self_iff_true, if_true, hvk, List.isEmpty, validatorPhase,
      applyHandlers, callValidators, idHandler, dictSet, Option.getD, c10ModelAfter]
    rfl
  exact c10_unchained_attributes_set_to_none c10Model "a" .tint
    (by simp [c10Model, c10Base, Model.add_validator])
    (by simp [c10Model, c10Base, Model.add_validator])
    (by simp [c10Model, c10Base, Model.add_validator, addValidatorDict, keyNameKeys, dictAppendHandler, assocLookup])
    (by simp [c10Model, c10Base, Model.add_validator, addValidatorDict, keyNameKeys, dictAppendHandler, assocLookup])
    rfl [("a", Value.vnull)] c10ModelAfter hv10

end Rainbows
